import Mathlib

/-!
# redmemd: the process shell (`main.go`)

A shallow embedding of `main.go` of redmemd, a gateway that speaks the memcached
text protocol and stores items in Redis.  The file covers

* the configuration read from the environment (`optPort`, `optRedisURL`, `optDebug`
  and the defaults `main` fills in), and
* the per-connection worker `handleConn`: its prologue (URL parsing, ping), its
  request loop and its deferred calls.

Calls that leave the process (`memwire.ReadRequest`, the buffered writer, `client.Ping`,
`RoundTripper.Do`, `ctx.Err`) are modelled by the results they return: a connection is
described by the list of results its calls will produce, and the worker is a function
from that description to the sequence of calls it makes.
-/

namespace Redmemd

/-! ## Go error values -/

/-- A Go `error` value as `handleConn` can tell them apart: the sentinel `io.EOF`
(compared with `==`), a value of dynamic type `memwire.Error` (type assertion), or
any other error. -/
inductive GoError where
  | eof
  | wire (msg : String)
  | other (msg : String)
  deriving DecidableEq, Repr

/-- The `Error()` method of a Go error. -/
def GoError.Error : GoError → String
  | .eof => "EOF"
  | .wire msg => msg
  | .other msg => msg

/-- The comparison `err == io.EOF`. -/
def GoError.isEOF : GoError → Bool
  | .eof => true
  | _ => false

/-- The type assertion `_, ok := err.(memwire.Error)`. -/
def GoError.isWire : GoError → Bool
  | .wire _ => true
  | _ => false

/-! ## Configuration (`main.go`, lines 22-52) -/

/-- The predicate `unicode.IsSpace` of the Go standard library: the Latin-1 spaces
and the code points of category Z or property Pattern_White_Space. -/
def unicode.IsSpace (c : Char) : Bool :=
  decide (c.toNat ∈ [0x09, 0x0A, 0x0B, 0x0C, 0x0D, 0x20, 0x85, 0xA0, 0x1680,
      0x2028, 0x2029, 0x202F, 0x205F, 0x3000])
    || (decide (0x2000 ≤ c.toNat) && decide (c.toNat ≤ 0x200A))

/-- The function `strings.TrimSpace`: the string without its leading and trailing
white space (as `unicode.IsSpace` defines it).  Strings are sequences of code points here,
so the values covered are those that are valid UTF-8. -/
def strings.TrimSpace (s : String) : String :=
  String.mk ((s.data.dropWhile unicode.IsSpace).reverse.dropWhile unicode.IsSpace).reverse

/-- The function `strconv.ParseBool`: the value and whether parsing succeeded. -/
def strconv.ParseBool (s : String) : Bool × Bool :=
  if s ∈ ["1", "t", "T", "TRUE", "true", "True"] then (true, true)
  else if s ∈ ["0", "f", "F", "FALSE", "false", "False"] then (false, true)
  else (false, false)

/-- The process environment: the value of each variable that is set. -/
abbrev Environ := String → Option String

/-- The function `os.Getenv`: the value of the variable, empty when it is unset. -/
def os.Getenv (env : Environ) (key : String) : String :=
  (env key).getD ""

/-- Package variable `optPort` as initialised at line 23. -/
def optPort (env : Environ) : String :=
  strings.TrimSpace (os.Getenv env "PORT")

/-- Package variable `optRedisURL` as initialised at line 24. -/
def optRedisURL (env : Environ) : String :=
  strings.TrimSpace (os.Getenv env "REDIS_URL")

/-- Package variable `optDebug` as initialised at line 25 (the parse error is dropped). -/
def optDebug (env : Environ) : Bool :=
  (strconv.ParseBool (os.Getenv env "DEBUG")).1

/-- The package variables once `main` has filled in the defaults (lines 41-47). -/
structure Options where
  port : String
  redisURL : String
  debug : Bool
  deriving DecidableEq, Repr

/-- Lines 41-47 of `main`: an empty `optPort` becomes `11211`, an empty `optRedisURL`
becomes the local Redis URL. -/
def mainOptions (env : Environ) : Options :=
  let port := if optPort env = "" then "11211" else optPort env
  let redisURL := if optRedisURL env = "" then "redis://127.0.0.1:6379/0" else optRedisURL env
  { port := port, redisURL := redisURL, debug := optDebug env }

/-- The address string `main` hands to `net.ResolveTCPAddr` at line 50. -/
def listenAddress (env : Environ) : String :=
  "0.0.0.0:" ++ (mainOptions env).port

/-! ## The memwire package -/

/-- Modelled from the spec: the status token `memwire.CodeErr`; package memwire is not
among the sources, the spec gives the token as `ERROR`. -/
def memwire.CodeErr : String := "ERROR"

/-- Modelled from the spec: the status token `memwire.CodeServerErr`; package memwire is
not among the sources, the spec gives the token as `SERVER_ERROR`. -/
def memwire.CodeServerErr : String := "SERVER_ERROR"

/-- Modelled from the spec: the type `memwire.Request`, which is not among the sources;
the fields are the attributes the spec lists for a decoded request. -/
structure memwire.Request where
  verb : String
  key : String
  flags : Nat
  exptime : Int
  bytes : Nat
  payload : List Nat
  casUnique : Nat
  delta : Nat
  noreply : Bool
  deriving DecidableEq, Repr

/-- The two results of `memwire.ReadRequest`: a decoded request or an error. -/
inductive ReadResult where
  | ok (req : memwire.Request)
  | error (err : GoError)
  deriving DecidableEq, Repr

/-! ## The dispatcher -/

/-- Class of the response the dispatcher produced for a request. -/
inductive ResponseClass where
  | success
  | clientError
  | serverError
  deriving DecidableEq, Repr

/-- Modelled from the spec: what a call of `RoundTripper.Do` comes to; the method is not
among the sources.  By the spec the dispatcher turns every request into one response,
client and server errors included (`CLIENT_ERROR`, `SERVER_ERROR`), and the connection
goes on; what is left to be returned as an error is a failed write or flush of that
response. -/
inductive DoOutcome where
  | responded (cls : ResponseClass)
  | ioFailed (err : GoError)
  deriving DecidableEq, Repr

/-- The `error` that `rt.Do(ctx)` returns, `none` for nil. -/
def DoOutcome.err : DoOutcome → Option GoError
  | .responded _ => none
  | .ioFailed e => some e

/-! ## The connection worker (`main.go`, lines 103-187) -/

/-- What the calls of one pass through the request loop return: `memwire.ReadRequest`,
`ctx.Err() != nil`, `w.WriteString`, `w.Flush` and `rt.Do`.  A result is used only if
the pass makes the call. -/
structure Round where
  read : ReadResult
  cancelled : Bool
  write : Option GoError
  flush : Option GoError
  dispatch : DoOutcome
  deriving DecidableEq, Repr

/-- A call made by the worker, with the result it got. -/
inductive Event where
  | logPrintln (args : List String)
  | parseURL (url : String) (err : Option GoError)
  | newClient
  | newLock
  | ping (err : Option GoError)
  | spawnCloser
  | readRequest (res : ReadResult)
  | ctxErr (cancelled : Bool)
  | writeString (s : String) (err : Option GoError)
  | flush (err : Option GoError)
  | doCall (req : memwire.Request)
  | doReturn (err : Option GoError)
  | clientClose
  | connClose
  | wgDone
  deriving DecidableEq, Repr

/-- How a pass through the loop body ends: at the bottom of the body or at `continue`
(the loop goes on), or at a `return`, with the value `err` then has. -/
inductive Control where
  | next
  | ret (err : Option GoError)
  deriving DecidableEq, Repr

/-- Lines 153-163: the answer to a read error other than `io.EOF`. -/
def readFailed (e : GoError) (r : Round) : List Event × Control :=
  if e.isWire then
    match r.write with
    | some ew => ([.writeString (memwire.CodeErr ++ "\r\n") (some ew)], .ret (some ew))
    | none =>
      match r.flush with
      | some ef => ([.writeString (memwire.CodeErr ++ "\r\n") none, .flush (some ef)],
          .ret (some ef))
      | none => ([.writeString (memwire.CodeErr ++ "\r\n") none, .flush none], .next)
  else ([], .ret (some e))

/-- Lines 166-174: the answer to a decoded request once the context is cancelled. -/
def shuttingDown (r : Round) : List Event × Control :=
  match r.write with
  | some ew =>
    ([.writeString (memwire.CodeServerErr ++ " shutting down\r\n") (some ew)], .ret (some ew))
  | none =>
    ([.writeString (memwire.CodeServerErr ++ " shutting down\r\n") none, .flush r.flush],
      .ret r.flush)

/-- Lines 176-185: the request is handed to a `RoundTripper`. -/
def roundTrip (req : memwire.Request) (r : Round) : List Event × Control :=
  match r.dispatch.err with
  | some e => ([.doCall req, .doReturn (some e)], .ret (some e))
  | none => ([.doCall req, .doReturn none], .next)

/-- One pass through the body of the request loop (lines 145-185). -/
def iteration (remote : String) (debug : Bool) (r : Round) : List Event × Control :=
  match r.read with
  | .error e =>
    if e.isEOF then ([.readRequest (.error e)], .ret (some e))
    else
      let dbg : List Event :=
        if debug then [.logPrintln ["[debug] read error:", remote, e.Error]] else []
      let (evs, c) := readFailed e r
      (.readRequest (.error e) :: dbg ++ evs, c)
  | .ok req =>
    if r.cancelled then
      let (evs, c) := shuttingDown r
      (.readRequest (.ok req) :: .ctxErr true :: evs, c)
    else
      let (evs, c) := roundTrip req r
      (.readRequest (.ok req) :: .ctxErr false :: evs, c)

/-- The request loop (lines 144-186) run on the results of its calls, one `Round` per
pass.  The second component is `some err` when the loop reached a `return` with `err`,
and `none` when every listed pass ended in `continue`: the worker is then inside the
next `memwire.ReadRequest`. -/
def loop (remote : String) (debug : Bool) : List Round → List Event × Option (Option GoError)
  | [] => ([], none)
  | r :: rest =>
    match iteration remote debug r with
    | (evs, .ret err) => (evs, some err)
    | (evs, .next) =>
      let (evs', out) := loop remote debug rest
      (evs ++ evs', out)

/-- The deferred function of lines 111-118: `io.EOF` is reset to nil, any other error
is logged. -/
def deferredError (remote : String) (err : Option GoError) : List Event × Option GoError :=
  let err := if err = some .eof then none else err
  match err with
  | some e => ([.logPrintln ["error:", remote, e.Error]], some e)
  | none => ([], none)

/-- A connection as the worker meets it: the peer address, the results of
`redis.ParseURL` and `client.Ping`, and the results of the passes of the loop. -/
structure Conn where
  remote : String
  parseErr : Option GoError
  pingErr : Option GoError
  rounds : List Round
  deriving DecidableEq, Repr

/-- What is known of a worker. -/
structure Run where
  trace : List Event
  returned : Bool
  err : Option GoError
  deriving DecidableEq, Repr

/-- The deferred calls in the order they run: `client.Close` (when the client exists),
the error handler, the `disconnected` log line, `conn.Close`, `wg.Done`. -/
def deferred (remote : String) (hasClient : Bool) (err : Option GoError) :
    List Event × Option GoError :=
  let (evs, err') := deferredError remote err
  ((if hasClient then [Event.clientClose] else []) ++ evs
    ++ [.logPrintln ["disconnected:", remote], .connClose, .wgDone], err')

/-- The function `handleConn` (lines 103-187). -/
def handleConn (opts : Options) (c : Conn) : Run :=
  let start : List Event := [.logPrintln ["connected:", c.remote], .parseURL opts.redisURL c.parseErr]
  match c.parseErr with
  | some e =>
    let (evs, err) := deferred c.remote false (some e)
    { trace := start ++ evs, returned := true, err := err }
  | none =>
    let start := start ++ [.newClient, .newLock, .ping c.pingErr]
    match c.pingErr with
    | some e =>
      let (evs, err) := deferred c.remote true (some e)
      { trace := start ++ evs, returned := true, err := err }
    | none =>
      let start := start ++ [.spawnCloser]
      match loop c.remote opts.debug c.rounds with
      | (evs, some err) =>
        let (evs', err') := deferred c.remote true err
        { trace := start ++ evs ++ evs', returned := true, err := err' }
      | (evs, none) => { trace := start ++ evs, returned := false, err := none }

/-! ## Reading a trace -/

/-- The strings handed to `w.WriteString`, in order. -/
def writes : List Event → List String
  | [] => []
  | .writeString s _ :: evs => s :: writes evs
  | _ :: evs => writes evs

/-- The requests handed to `RoundTripper.Do`, in order. -/
def dispatched : List Event → List memwire.Request
  | [] => []
  | .doCall req :: evs => req :: dispatched evs
  | _ :: evs => dispatched evs

/-- The requests `memwire.ReadRequest` decoded, in order. -/
def decoded : List Event → List memwire.Request
  | [] => []
  | .readRequest (.ok req) :: evs => req :: decoded evs
  | _ :: evs => decoded evs

/-- The number of calls of `memwire.ReadRequest`. -/
def reads : List Event → Nat
  | [] => 0
  | .readRequest _ :: evs => reads evs + 1
  | _ :: evs => reads evs

/-- The number of calls of `w.Flush`. -/
def flushes : List Event → Nat
  | [] => 0
  | .flush _ :: evs => flushes evs + 1
  | _ :: evs => flushes evs

/-- The error lines logged by the deferred handler. -/
def errorLogs : List Event → List (List String)
  | [] => []
  | .logPrintln ("error:" :: args) :: evs => ("error:" :: args) :: errorLogs evs
  | _ :: evs => errorLogs evs

/-! ## Reading the configuration -/

/-- The string `t` is `s` with its leading and trailing white space removed: `s` is `t`
between two runs of white space, and `t` neither starts nor ends with white space. -/
def IsTrimOf (t s : String) : Prop :=
  (∃ l r : List Char, s.data = l ++ t.data ++ r
      ∧ (∀ c ∈ l, unicode.IsSpace c = true) ∧ (∀ c ∈ r, unicode.IsSpace c = true))
    ∧ (∀ c, t.data.head? = some c → unicode.IsSpace c = false)
    ∧ (∀ c, t.data.getLast? = some c → unicode.IsSpace c = false)

/-- The requests decoded in the given passes, in the order of the passes. -/
def decodedIn : List Round → List memwire.Request
  | [] => []
  | r :: rs =>
    match r.read with
    | .ok req => req :: decodedIn rs
    | .error _ => decodedIn rs

/-- The event is neither a call of `memwire.ReadRequest` nor a call of `RoundTripper.Do`. -/
def Event.isAnswer : Event → Bool
  | .readRequest _ => false
  | .doCall _ => false
  | _ => true

/-! ## The loop, pass by pass -/

/-- A pass that ends in `continue` is followed by the rest of the loop. -/
theorem loop_cons_next (remote : String) (debug : Bool) (r : Round) (rest : List Round)
    (h : (iteration remote debug r).2 = .next) :
    loop remote debug (r :: rest) =
      ((iteration remote debug r).1 ++ (loop remote debug rest).1, (loop remote debug rest).2) := by
  rcases hit : iteration remote debug r with ⟨evs, c⟩
  rw [hit] at h
  simp only at h
  subst h
  simp [loop, hit]

/-- A pass that ends in `return` ends the loop. -/
theorem loop_cons_ret (remote : String) (debug : Bool) (r : Round) (rest : List Round)
    (err : Option GoError) (h : (iteration remote debug r).2 = .ret err) :
    loop remote debug (r :: rest) = ((iteration remote debug r).1, some err) := by
  rcases hit : iteration remote debug r with ⟨evs, c⟩
  rw [hit] at h
  simp only at h
  subst h
  simp [loop, hit]

/-- Every pass starts with its call of `memwire.ReadRequest`. -/
theorem iteration_head (remote : String) (debug : Bool) (r : Round) :
    ∃ tl, (iteration remote debug r).1 = .readRequest r.read :: tl := by
  unfold iteration
  split
  · next e h =>
    split
    · exact ⟨[], by simp [h]⟩
    · exact ⟨_, by simp [h]; rfl⟩
  · next req h =>
    split
    · exact ⟨_, by simp [h]; rfl⟩
    · exact ⟨_, by simp [h]; rfl⟩

/-- A loop with a pass left starts that pass with its call of `memwire.ReadRequest`. -/
theorem loop_head (remote : String) (debug : Bool) (r : Round) (rest : List Round) :
    ∃ tl, (loop remote debug (r :: rest)).1 = .readRequest r.read :: tl := by
  obtain ⟨tl, htl⟩ := iteration_head remote debug r
  rcases hc : (iteration remote debug r).2 with _ | err
  · rw [loop_cons_next remote debug r rest hc, htl]
    exact ⟨_, rfl⟩
  · rw [loop_cons_ret remote debug r rest err hc, htl]
    exact ⟨_, rfl⟩

/-- Passes that all end in `continue` are followed by the passes after them. -/
theorem loop_append (remote : String) (debug : Bool) (pre rs : List Round)
    (h : (loop remote debug pre).2 = none) :
    loop remote debug (pre ++ rs) =
      ((loop remote debug pre).1 ++ (loop remote debug rs).1, (loop remote debug rs).2) := by
  induction pre with
  | nil => simp [loop]
  | cons r pre ih =>
    rcases hc : (iteration remote debug r).2 with _ | err
    · rw [loop_cons_next remote debug r pre hc] at h
      rw [List.cons_append, loop_cons_next remote debug r _ hc, loop_cons_next remote debug r pre hc,
        ih h]
      simp
    · rw [loop_cons_ret remote debug r pre err hc] at h
      simp at h

/-! ## The three outcomes of a read -/

/-- C1: in a pass of the request loop in which `memwire.ReadRequest` fails with a framing
error (an error of type `memwire.Error`), the worker calls `w.WriteString` exactly once,
with the `ERROR` line (`memwire.CodeErr` followed by CR LF), flushes it (the flush follows
the write as soon as the write returned no error), does not call `RoundTripper.Do`, and,
when the write and the flush succeed, the pass ends in `continue`: the loop goes on and its
next call is the `memwire.ReadRequest` of the next pass. -/
theorem framing_error_answered_with_error_line (remote : String) (debug : Bool) (r : Round)
    (msg : String) (h : r.read = .error (.wire msg)) :
    (iteration remote debug r).1 =
        .readRequest (.error (.wire msg))
          :: (if debug then [Event.logPrintln ["[debug] read error:", remote, msg]] else [])
          ++ .writeString (memwire.CodeErr ++ "\r\n") r.write
          :: (if r.write = none then [Event.flush r.flush] else [])
      ∧ writes (iteration remote debug r).1 = [memwire.CodeErr ++ "\r\n"]
      ∧ dispatched (iteration remote debug r).1 = []
      ∧ reads (iteration remote debug r).1 = 1
      ∧ (r.write = none → flushes (iteration remote debug r).1 = 1)
      ∧ (r.write = none → r.flush = none →
          (iteration remote debug r).2 = .next
          ∧ (∀ rest, loop remote debug (r :: rest) =
              ((iteration remote debug r).1 ++ (loop remote debug rest).1,
                (loop remote debug rest).2))
          ∧ ∀ r' rest, ∃ tl, (loop remote debug (r :: r' :: rest)).1 =
              (iteration remote debug r).1 ++ .readRequest r'.read :: tl) := by
  have hev : (iteration remote debug r).1 =
      .readRequest (.error (.wire msg))
        :: (if debug then [Event.logPrintln ["[debug] read error:", remote, msg]] else [])
        ++ .writeString (memwire.CodeErr ++ "\r\n") r.write
        :: (if r.write = none then [Event.flush r.flush] else []) := by
    cases debug <;> rcases hw : r.write with _ | ew <;> rcases hf : r.flush with _ | ef <;>
      simp [iteration, readFailed, h, hw, hf, GoError.isEOF, GoError.isWire, GoError.Error]
  have hnext : r.write = none → r.flush = none → (iteration remote debug r).2 = .next := by
    intro hw hf
    simp [iteration, readFailed, h, hw, hf, GoError.isEOF, GoError.isWire]
  refine ⟨hev, ?_, ?_, ?_, ?_, ?_⟩
  · rw [hev]
    cases debug <;> rcases hw : r.write with _ | ew <;> simp [writes]
  · rw [hev]
    cases debug <;> rcases hw : r.write with _ | ew <;> simp [dispatched]
  · rw [hev]
    cases debug <;> rcases hw : r.write with _ | ew <;> simp [reads]
  · intro hw
    rw [hev]
    cases debug <;> simp [flushes, hw]
  · intro hw hf
    refine ⟨hnext hw hf, fun rest => loop_cons_next remote debug r rest (hnext hw hf), ?_⟩
    intro r' rest
    obtain ⟨tl, htl⟩ := loop_head remote debug r' rest
    exact ⟨tl, by rw [loop_cons_next remote debug r _ (hnext hw hf), htl]⟩

/-- Witness of C1: a framing error on a connection whose writer works. -/
theorem framing_error_answered_with_error_line_witness :
    (iteration "10.0.0.7:40112" false
        ⟨.error (.wire "unknown command"), false, none, none, .responded .success⟩).1 =
      [.readRequest (.error (.wire "unknown command")), .writeString "ERROR\r\n" none,
        .flush none]
    ∧ (iteration "10.0.0.7:40112" false
        ⟨.error (.wire "unknown command"), false, none, none, .responded .success⟩).2 = .next := by
  have h := framing_error_answered_with_error_line "10.0.0.7:40112" false
    ⟨.error (.wire "unknown command"), false, none, none, .responded .success⟩
    "unknown command" rfl
  exact ⟨by decide, (h.2.2.2.2.2 rfl rfl).1⟩

/-- C2: when `memwire.ReadRequest` returns the clean end of the stream (`io.EOF`), the
worker ends silently.  The pass consists of the read alone and leaves the loop with
`err == io.EOF`: nothing is written, `RoundTripper.Do` is not called.  The deferred
handler resets the error to nil and logs nothing, so the worker, whatever passes went
before, ends with the deferred calls `client.Close`, the `disconnected` line,
`conn.Close` and `wg.Done`, and with a nil error. -/
theorem clean_eof_ends_worker_silently (opts : Options) (c : Conn) (pre rest : List Round)
    (r : Round) (hparse : c.parseErr = none) (hping : c.pingErr = none)
    (hrounds : c.rounds = pre ++ r :: rest)
    (hpre : (loop c.remote opts.debug pre).2 = none) (heof : r.read = .error .eof) :
    iteration c.remote opts.debug r = ([.readRequest (.error .eof)], .ret (some .eof))
      ∧ writes (iteration c.remote opts.debug r).1 = []
      ∧ dispatched (iteration c.remote opts.debug r).1 = []
      ∧ deferredError c.remote (some .eof) = ([], none)
      ∧ handleConn opts c =
          { trace := [.logPrintln ["connected:", c.remote], .parseURL opts.redisURL none,
                .newClient, .newLock, .ping none, .spawnCloser]
              ++ (loop c.remote opts.debug pre).1
              ++ [.readRequest (.error .eof), .clientClose,
                  .logPrintln ["disconnected:", c.remote], .connClose, .wgDone],
            returned := true, err := none }
      ∧ errorLogs [.readRequest (.error .eof), .clientClose,
          .logPrintln ["disconnected:", c.remote], .connClose, .wgDone] = [] := by
  have hit : iteration c.remote opts.debug r = ([.readRequest (.error .eof)], .ret (some .eof)) := by
    simp [iteration, heof, GoError.isEOF]
  have hloop : loop c.remote opts.debug c.rounds =
      ((loop c.remote opts.debug pre).1 ++ [.readRequest (.error .eof)], some (some .eof)) := by
    rw [hrounds, loop_append c.remote opts.debug pre _ hpre,
      loop_cons_ret c.remote opts.debug r rest (some .eof) (by rw [hit]), hit]
  refine ⟨hit, by rw [hit]; rfl, by rw [hit]; rfl, by simp [deferredError], ?_, by
    simp [errorLogs]⟩
  simp [handleConn, hparse, hping, hloop, deferred, deferredError]

/-- Witness of C2: the peer closes after one answered request. -/
theorem clean_eof_ends_worker_silently_witness :
    handleConn ⟨"11211", "redis://127.0.0.1:6379/0", false⟩
        ⟨"10.0.0.7:40112", none, none,
          [⟨.ok ⟨"get", "x", 0, 0, 0, [], 0, 0, false⟩, false, none, none, .responded .success⟩,
            ⟨.error .eof, false, none, none, .responded .success⟩]⟩ =
      { trace := [.logPrintln ["connected:", "10.0.0.7:40112"],
            .parseURL "redis://127.0.0.1:6379/0" none, .newClient, .newLock, .ping none,
            .spawnCloser,
            .readRequest (.ok ⟨"get", "x", 0, 0, 0, [], 0, 0, false⟩), .ctxErr false,
            .doCall ⟨"get", "x", 0, 0, 0, [], 0, 0, false⟩, .doReturn none,
            .readRequest (.error .eof), .clientClose,
            .logPrintln ["disconnected:", "10.0.0.7:40112"], .connClose, .wgDone],
        returned := true, err := none } :=
  (clean_eof_ends_worker_silently ⟨"11211", "redis://127.0.0.1:6379/0", false⟩
    ⟨"10.0.0.7:40112", none, none,
      [⟨.ok ⟨"get", "x", 0, 0, 0, [], 0, 0, false⟩, false, none, none, .responded .success⟩,
        ⟨.error .eof, false, none, none, .responded .success⟩]⟩
    [⟨.ok ⟨"get", "x", 0, 0, 0, [], 0, 0, false⟩, false, none, none, .responded .success⟩] []
    ⟨.error .eof, false, none, none, .responded .success⟩ rfl rfl rfl (by decide) rfl).2.2.2.2.1

/-- C3: when `memwire.ReadRequest` fails with a connection error (neither `io.EOF` nor of
type `memwire.Error`), the error is not reported to the peer and the worker terminates.
The pass consists of the read (and the debug log line when `optDebug` is set): nothing is
written or flushed, `RoundTripper.Do` is not called, and the loop returns with that error
without making any of the later passes.  The worker itself, whatever passes went before,
then returns: its trace ends with that pass and the deferred calls `client.Close`, the
`error` log line (local, not sent to the peer), the `disconnected` line, `conn.Close` and
`wg.Done`, and it holds no read, write, flush or dispatch after the failed read. -/
theorem connection_error_ends_loop (opts : Options) (c : Conn) (pre rest : List Round)
    (r : Round) (e : GoError) (hparse : c.parseErr = none) (hping : c.pingErr = none)
    (hrounds : c.rounds = pre ++ r :: rest)
    (hpre : (loop c.remote opts.debug pre).2 = none) (h : r.read = .error e)
    (heof : e.isEOF = false) (hwire : e.isWire = false) :
    iteration c.remote opts.debug r =
        (.readRequest (.error e)
          :: (if opts.debug then
                [Event.logPrintln ["[debug] read error:", c.remote, e.Error]] else []),
          .ret (some e))
      ∧ loop c.remote opts.debug (r :: rest) = ((iteration c.remote opts.debug r).1, some (some e))
      ∧ writes (loop c.remote opts.debug (r :: rest)).1 = []
      ∧ flushes (loop c.remote opts.debug (r :: rest)).1 = 0
      ∧ dispatched (loop c.remote opts.debug (r :: rest)).1 = []
      ∧ reads (loop c.remote opts.debug (r :: rest)).1 = 1
      ∧ handleConn opts c =
          { trace := [.logPrintln ["connected:", c.remote], .parseURL opts.redisURL none,
                .newClient, .newLock, .ping none, .spawnCloser]
              ++ (loop c.remote opts.debug pre).1
              ++ (iteration c.remote opts.debug r).1
              ++ [.clientClose, .logPrintln ["error:", c.remote, e.Error],
                  .logPrintln ["disconnected:", c.remote], .connClose, .wgDone],
            returned := true, err := some e }
      ∧ writes ((iteration c.remote opts.debug r).1
          ++ [.clientClose, .logPrintln ["error:", c.remote, e.Error],
              .logPrintln ["disconnected:", c.remote], .connClose, .wgDone]) = []
      ∧ flushes ((iteration c.remote opts.debug r).1
          ++ [.clientClose, .logPrintln ["error:", c.remote, e.Error],
              .logPrintln ["disconnected:", c.remote], .connClose, .wgDone]) = 0
      ∧ dispatched ((iteration c.remote opts.debug r).1
          ++ [.clientClose, .logPrintln ["error:", c.remote, e.Error],
              .logPrintln ["disconnected:", c.remote], .connClose, .wgDone]) = []
      ∧ reads ((iteration c.remote opts.debug r).1
          ++ [.clientClose, .logPrintln ["error:", c.remote, e.Error],
              .logPrintln ["disconnected:", c.remote], .connClose, .wgDone]) = 1 := by
  have hit : iteration c.remote opts.debug r =
      (.readRequest (.error e)
        :: (if opts.debug then
              [Event.logPrintln ["[debug] read error:", c.remote, e.Error]] else []),
        .ret (some e)) := by
    cases hd : opts.debug <;> simp [iteration, readFailed, h, heof, hwire]
  have hloop : loop c.remote opts.debug (r :: rest) =
      ((iteration c.remote opts.debug r).1, some (some e)) :=
    loop_cons_ret c.remote opts.debug r rest (some e) (by rw [hit])
  have hne : e ≠ .eof := by
    intro he
    rw [he] at heof
    simp [GoError.isEOF] at heof
  have hall : loop c.remote opts.debug c.rounds =
      ((loop c.remote opts.debug pre).1 ++ (iteration c.remote opts.debug r).1,
        some (some e)) := by
    rw [hrounds, loop_append c.remote opts.debug pre _ hpre, hloop]
  refine ⟨hit, hloop, ?_, ?_, ?_, ?_, ?_, ?_, ?_, ?_, ?_⟩
  · rw [hloop, hit]
    cases opts.debug <;> simp [writes]
  · rw [hloop, hit]
    cases opts.debug <;> simp [flushes]
  · rw [hloop, hit]
    cases opts.debug <;> simp [dispatched]
  · rw [hloop, hit]
    cases opts.debug <;> simp [reads]
  · simp [handleConn, hparse, hping, hall, deferred, deferredError, hne]
  · rw [hit]
    cases opts.debug <;> simp [writes]
  · rw [hit]
    cases opts.debug <;> simp [flushes]
  · rw [hit]
    cases opts.debug <;> simp [dispatched]
  · rw [hit]
    cases opts.debug <;> simp [reads]

/-- Witness of C3: the connection is reset after one answered request, with a further
request that is never read. -/
theorem connection_error_ends_loop_witness :
    handleConn ⟨"11211", "redis://127.0.0.1:6379/0", true⟩
        ⟨"10.0.0.7:40112", none, none,
          [⟨.ok ⟨"get", "x", 0, 0, 0, [], 0, 0, false⟩, false, none, none, .responded .success⟩,
            ⟨.error (.other "read: connection reset by peer"), false, none, none,
              .responded .success⟩,
            ⟨.ok ⟨"get", "y", 0, 0, 0, [], 0, 0, false⟩, false, none, none,
              .responded .success⟩]⟩ =
      { trace := [.logPrintln ["connected:", "10.0.0.7:40112"],
            .parseURL "redis://127.0.0.1:6379/0" none, .newClient, .newLock, .ping none,
            .spawnCloser,
            .readRequest (.ok ⟨"get", "x", 0, 0, 0, [], 0, 0, false⟩), .ctxErr false,
            .doCall ⟨"get", "x", 0, 0, 0, [], 0, 0, false⟩, .doReturn none,
            .readRequest (.error (.other "read: connection reset by peer")),
            .logPrintln ["[debug] read error:", "10.0.0.7:40112",
              "read: connection reset by peer"],
            .clientClose,
            .logPrintln ["error:", "10.0.0.7:40112", "read: connection reset by peer"],
            .logPrintln ["disconnected:", "10.0.0.7:40112"], .connClose, .wgDone],
        returned := true, err := some (.other "read: connection reset by peer") } :=
  (connection_error_ends_loop ⟨"11211", "redis://127.0.0.1:6379/0", true⟩
    ⟨"10.0.0.7:40112", none, none,
      [⟨.ok ⟨"get", "x", 0, 0, 0, [], 0, 0, false⟩, false, none, none, .responded .success⟩,
        ⟨.error (.other "read: connection reset by peer"), false, none, none,
          .responded .success⟩,
        ⟨.ok ⟨"get", "y", 0, 0, 0, [], 0, 0, false⟩, false, none, none, .responded .success⟩]⟩
    [⟨.ok ⟨"get", "x", 0, 0, 0, [], 0, 0, false⟩, false, none, none, .responded .success⟩]
    [⟨.ok ⟨"get", "y", 0, 0, 0, [], 0, 0, false⟩, false, none, none, .responded .success⟩]
    ⟨.error (.other "read: connection reset by peer"), false, none, none, .responded .success⟩
    (.other "read: connection reset by peer") rfl rfl rfl (by decide) rfl rfl rfl).2.2.2.2.2.2.1

/-! ## Shutdown -/

/-- C4: a request decoded once the context is cancelled (`ctx.Err() != nil`) is not
dispatched: `RoundTripper.Do` is not called for it, the one string written is
`memwire.CodeServerErr` followed by ` shutting down` and CR LF, it is flushed (the flush
follows the write as soon as the write returned no error), and the pass ends in `return`,
which ends the loop whatever passes were to follow. -/
theorem cancelled_request_answered_shutting_down (remote : String) (debug : Bool) (r : Round)
    (rest : List Round) (req : memwire.Request) (h : r.read = .ok req)
    (hc : r.cancelled = true) :
    iteration remote debug r =
        (.readRequest (.ok req) :: .ctxErr true
          :: .writeString (memwire.CodeServerErr ++ " shutting down\r\n") r.write
          :: (if r.write = none then [Event.flush r.flush] else []),
          .ret (if r.write = none then r.flush else r.write))
      ∧ loop remote debug (r :: rest) =
          ((iteration remote debug r).1, some (if r.write = none then r.flush else r.write))
      ∧ writes (loop remote debug (r :: rest)).1 =
          [memwire.CodeServerErr ++ " shutting down\r\n"]
      ∧ dispatched (loop remote debug (r :: rest)).1 = []
      ∧ reads (loop remote debug (r :: rest)).1 = 1
      ∧ (r.write = none → flushes (loop remote debug (r :: rest)).1 = 1) := by
  have hit : iteration remote debug r =
      (.readRequest (.ok req) :: .ctxErr true
        :: .writeString (memwire.CodeServerErr ++ " shutting down\r\n") r.write
        :: (if r.write = none then [Event.flush r.flush] else []),
        .ret (if r.write = none then r.flush else r.write)) := by
    rcases hw : r.write with _ | ew <;> simp [iteration, shuttingDown, h, hc, hw]
  have hloop : loop remote debug (r :: rest) =
      ((iteration remote debug r).1, some (if r.write = none then r.flush else r.write)) :=
    loop_cons_ret remote debug r rest _ (by rw [hit])
  refine ⟨hit, hloop, ?_, ?_, ?_, ?_⟩
  · rw [hloop, hit]
    rcases hw : r.write with _ | ew <;> simp [writes]
  · rw [hloop, hit]
    rcases hw : r.write with _ | ew <;> simp [dispatched]
  · rw [hloop, hit]
    rcases hw : r.write with _ | ew <;> simp [reads]
  · intro hw
    rw [hloop, hit]
    simp [flushes, hw]

/-- Witness of C4: a `get` read after the shutdown signal, with a further request behind it. -/
theorem cancelled_request_answered_shutting_down_witness :
    loop "10.0.0.7:40112" false
        [⟨.ok ⟨"get", "x", 0, 0, 0, [], 0, 0, false⟩, true, none, none, .responded .success⟩,
          ⟨.ok ⟨"get", "y", 0, 0, 0, [], 0, 0, false⟩, true, none, none, .responded .success⟩] =
      ([.readRequest (.ok ⟨"get", "x", 0, 0, 0, [], 0, 0, false⟩), .ctxErr true,
          .writeString "SERVER_ERROR shutting down\r\n" none, .flush none], some none) := by
  have h := cancelled_request_answered_shutting_down "10.0.0.7:40112" false
    ⟨.ok ⟨"get", "x", 0, 0, 0, [], 0, 0, false⟩, true, none, none, .responded .success⟩
    [⟨.ok ⟨"get", "y", 0, 0, 0, [], 0, 0, false⟩, true, none, none, .responded .success⟩]
    ⟨"get", "x", 0, 0, 0, [], 0, 0, false⟩ rfl rfl
  rw [h.2.1, h.1]
  decide

/-- C8: the shutdown check is applied to decoded requests only.  In a pass in which the
context is already cancelled and `memwire.ReadRequest` fails with a framing error, the
worker does what it does with a live context: `ctx.Err` is not consulted, the one string
written is the `ERROR` line and not the `SERVER_ERROR shutting down` line, and when the
write and the flush succeed the pass ends in `continue` and the next call is the
`memwire.ReadRequest` of the next pass. -/
theorem framing_error_ignores_cancellation (remote : String) (debug : Bool) (r : Round)
    (msg : String) (_hc : r.cancelled = true) (h : r.read = .error (.wire msg)) :
    iteration remote debug r = iteration remote debug { r with cancelled := false }
      ∧ writes (iteration remote debug r).1 = [memwire.CodeErr ++ "\r\n"]
      ∧ memwire.CodeServerErr ++ " shutting down\r\n" ∉ writes (iteration remote debug r).1
      ∧ (∀ b, Event.ctxErr b ∉ (iteration remote debug r).1)
      ∧ (r.write = none → r.flush = none →
          (iteration remote debug r).2 = .next
          ∧ ∀ r' rest, ∃ tl, (loop remote debug (r :: r' :: rest)).1 =
              (iteration remote debug r).1 ++ .readRequest r'.read :: tl) := by
  have hw : writes (iteration remote debug r).1 = [memwire.CodeErr ++ "\r\n"] := by
    cases debug <;> rcases hw : r.write with _ | ew <;> rcases hf : r.flush with _ | ef <;>
      simp [iteration, readFailed, h, hw, hf, GoError.isEOF, GoError.isWire, writes]
  have hnext : r.write = none → r.flush = none → (iteration remote debug r).2 = .next := by
    intro hw hf
    simp [iteration, readFailed, h, hw, hf, GoError.isEOF, GoError.isWire]
  refine ⟨?_, hw, ?_, ?_, ?_⟩
  · simp [iteration, readFailed, h]
  · rw [hw]
    decide
  · intro b
    cases debug <;> rcases hw : r.write with _ | ew <;> rcases hf : r.flush with _ | ef <;>
      simp [iteration, readFailed, h, hw, hf, GoError.isEOF, GoError.isWire]
  · intro hw hf
    refine ⟨hnext hw hf, ?_⟩
    intro r' rest
    obtain ⟨tl, htl⟩ := loop_head remote debug r' rest
    exact ⟨tl, by rw [loop_cons_next remote debug r _ (hnext hw hf), htl]⟩

/-- Witness of C8: a framing error after the shutdown signal, then a request. -/
theorem framing_error_ignores_cancellation_witness :
    writes (iteration "10.0.0.7:40112" false
        ⟨.error (.wire "bad data chunk"), true, none, none, .responded .success⟩).1 =
      ["ERROR\r\n"]
    ∧ (iteration "10.0.0.7:40112" false
        ⟨.error (.wire "bad data chunk"), true, none, none, .responded .success⟩).2 = .next := by
  have h := framing_error_ignores_cancellation "10.0.0.7:40112" false
    ⟨.error (.wire "bad data chunk"), true, none, none, .responded .success⟩
    "bad data chunk" rfl rfl
  exact ⟨h.2.1, (h.2.2.2.2 rfl rfl).1⟩

/-! ## The prologue -/

/-- C10: a worker serves no request unless its backend is reachable.  When
`redis.ParseURL` fails, or it succeeds and the first `client.Ping` fails, `handleConn`
returns with that error in `err` before the loop is entered: the worker has returned, its
trace is the prologue up to the failing call followed by the deferred calls run on that
error, it holds no call of `memwire.ReadRequest`, `w.WriteString`, `w.Flush` or
`RoundTripper.Do`, and it is the same whatever the peer was going to send. -/
theorem unreachable_backend_serves_nothing (opts : Options) (c : Conn) (e : GoError)
    (h : c.parseErr = some e ∨ (c.parseErr = none ∧ c.pingErr = some e)) :
    (handleConn opts c).returned = true
      ∧ (handleConn opts c).trace =
          (.logPrintln ["connected:", c.remote] :: .parseURL opts.redisURL c.parseErr
            :: (if c.parseErr = none then [Event.newClient, .newLock, .ping (some e)] else []))
          ++ (deferred c.remote (decide (c.parseErr = none)) (some e)).1
      ∧ (handleConn opts c).err = (if e = .eof then none else some e)
      ∧ reads (handleConn opts c).trace = 0
      ∧ writes (handleConn opts c).trace = []
      ∧ flushes (handleConn opts c).trace = 0
      ∧ dispatched (handleConn opts c).trace = []
      ∧ ∀ rounds, handleConn opts { c with rounds := rounds } = handleConn opts c := by
  rcases h with hp | ⟨hp, hg⟩
  · by_cases he : e = .eof
    · subst he
      simp [handleConn, hp, deferred, deferredError, reads, writes, flushes, dispatched]
    · simp [handleConn, hp, deferred, deferredError, reads, writes, flushes, dispatched, he]
  · by_cases he : e = .eof
    · subst he
      simp [handleConn, hp, hg, deferred, deferredError, reads, writes, flushes, dispatched]
    · simp [handleConn, hp, hg, deferred, deferredError, reads, writes, flushes, dispatched, he]

/-- Witness of C10: the ping is refused while the peer has a request waiting. -/
theorem unreachable_backend_serves_nothing_witness :
    (handleConn ⟨"11211", "redis://127.0.0.1:6379/0", false⟩
        ⟨"10.0.0.7:40112", none, some (.other "dial tcp 127.0.0.1:6379: connection refused"),
          [⟨.ok ⟨"get", "x", 0, 0, 0, [], 0, 0, false⟩, false, none, none,
            .responded .success⟩]⟩).trace =
      [.logPrintln ["connected:", "10.0.0.7:40112"],
        .parseURL "redis://127.0.0.1:6379/0" none, .newClient, .newLock,
        .ping (some (.other "dial tcp 127.0.0.1:6379: connection refused")), .clientClose,
        .logPrintln ["error:", "10.0.0.7:40112", "dial tcp 127.0.0.1:6379: connection refused"],
        .logPrintln ["disconnected:", "10.0.0.7:40112"], .connClose, .wgDone] := by
  have h := unreachable_backend_serves_nothing ⟨"11211", "redis://127.0.0.1:6379/0", false⟩
    ⟨"10.0.0.7:40112", none, some (.other "dial tcp 127.0.0.1:6379: connection refused"),
      [⟨.ok ⟨"get", "x", 0, 0, 0, [], 0, 0, false⟩, false, none, none, .responded .success⟩]⟩
    (.other "dial tcp 127.0.0.1:6379: connection refused") (Or.inr ⟨rfl, rfl⟩)
  rw [h.2.1]
  decide

/-! ## What ends the loop -/

/-- C6: the request loop is never ended by a recoverable error.  A pass ends in `return`
exactly on the clean end of the stream, on a connection-level I/O failure (a read error
that is not a framing error, a failed write or flush of the `ERROR` line, a failed write
or flush of the response inside `RoundTripper.Do`) or on shutdown (a request decoded with
the context cancelled).  In every other case (a framing error answered with `ERROR`, a
request answered by the dispatcher, be the response of the client-error or server-error
class) the pass ends in `continue` and the loop goes on with the next pass. -/
theorem loop_ends_only_on_eof_io_failure_shutdown (remote : String) (debug : Bool)
    (r : Round) :
    ((∃ err, (iteration remote debug r).2 = .ret err) ↔
        r.read = .error .eof
        ∨ (∃ msg, r.read = .error (.other msg))
        ∨ ((∃ msg, r.read = .error (.wire msg)) ∧ (r.write ≠ none ∨ r.flush ≠ none))
        ∨ ((∃ req, r.read = .ok req) ∧ r.cancelled = true)
        ∨ ((∃ req, r.read = .ok req) ∧ r.cancelled = false ∧ ∃ e, r.dispatch = .ioFailed e))
      ∧ ((iteration remote debug r).2 = .next ↔
        ((∃ msg, r.read = .error (.wire msg)) ∧ r.write = none ∧ r.flush = none)
        ∨ ((∃ req, r.read = .ok req) ∧ r.cancelled = false
            ∧ ∃ cls, r.dispatch = .responded cls))
      ∧ (∀ rest, (iteration remote debug r).2 = .next →
          loop remote debug (r :: rest) =
            ((iteration remote debug r).1 ++ (loop remote debug rest).1,
              (loop remote debug rest).2)) := by
  refine ⟨?_, ?_, fun rest h => loop_cons_next remote debug r rest h⟩
  · rcases hr : r.read with req | e
    · rcases hc : r.cancelled with _ | _
      · rcases hd : r.dispatch with cls | e
        · simp [iteration, roundTrip, hr, hc, hd, DoOutcome.err]
        · simp [iteration, roundTrip, hr, hc, hd, DoOutcome.err]
      · rcases hw : r.write with _ | ew <;> simp [iteration, shuttingDown, hr, hc, hw]
    · rcases e with _ | msg | msg
      · simp [iteration, hr, GoError.isEOF]
      · rcases hw : r.write with _ | ew <;> rcases hf : r.flush with _ | ef <;>
          simp [iteration, readFailed, hr, hw, hf, GoError.isEOF, GoError.isWire]
      · simp [iteration, readFailed, hr, GoError.isEOF, GoError.isWire]
  · rcases hr : r.read with req | e
    · rcases hc : r.cancelled with _ | _
      · rcases hd : r.dispatch with cls | e
        · simp [iteration, roundTrip, hr, hc, hd, DoOutcome.err]
        · simp [iteration, roundTrip, hr, hc, hd, DoOutcome.err]
      · rcases hw : r.write with _ | ew <;> simp [iteration, shuttingDown, hr, hc, hw]
    · rcases e with _ | msg | msg
      · simp [iteration, hr, GoError.isEOF]
      · rcases hw : r.write with _ | ew <;> rcases hf : r.flush with _ | ef <;>
          simp [iteration, readFailed, hr, hw, hf, GoError.isEOF, GoError.isWire]
      · simp [iteration, readFailed, hr, GoError.isEOF, GoError.isWire]

/-! ## The configuration -/

/-- A list is its trimmed middle between two runs that satisfy the predicate. -/
theorem dropWhile_both_ends_split {α : Type} (p : α → Bool) (l : List α) :
    ∃ a b : List α, l = a ++ ((l.dropWhile p).reverse.dropWhile p).reverse ++ b
      ∧ (∀ x ∈ a, p x = true) ∧ (∀ x ∈ b, p x = true) := by
  refine ⟨l.takeWhile p, ((l.dropWhile p).reverse.takeWhile p).reverse, ?_, ?_, ?_⟩
  · have h1 : ((l.dropWhile p).reverse.dropWhile p).reverse
        ++ ((l.dropWhile p).reverse.takeWhile p).reverse = l.dropWhile p := by
      rw [← List.reverse_append, List.takeWhile_append_dropWhile, List.reverse_reverse]
    rw [List.append_assoc, h1, List.takeWhile_append_dropWhile]
  · intro x hx
    exact List.mem_takeWhile_imp hx
  · intro x hx
    exact List.mem_takeWhile_imp (List.mem_reverse.mp hx)

/-- The trimmed middle does not start with an element that satisfies the predicate. -/
theorem dropWhile_both_ends_head {α : Type} (p : α → Bool) (l : List α) (x : α)
    (h : (((l.dropWhile p).reverse.dropWhile p).reverse).head? = some x) : p x = false := by
  have hsplit : ((l.dropWhile p).reverse.dropWhile p).reverse
      ++ ((l.dropWhile p).reverse.takeWhile p).reverse = l.dropWhile p := by
    rw [← List.reverse_append, List.takeWhile_append_dropWhile, List.reverse_reverse]
  have hhead : (l.dropWhile p).head? = some x := by
    rw [← hsplit]
    cases hm : ((l.dropWhile p).reverse.dropWhile p).reverse with
    | nil => rw [hm] at h; simp at h
    | cons y ys => rw [hm] at h; simpa using h
  have := List.head?_dropWhile_not p l
  rw [hhead] at this
  exact this

/-- The trimmed middle does not end with an element that satisfies the predicate. -/
theorem dropWhile_both_ends_last {α : Type} (p : α → Bool) (l : List α) (x : α)
    (h : (((l.dropWhile p).reverse.dropWhile p).reverse).getLast? = some x) : p x = false := by
  rw [List.getLast?_reverse] at h
  have := List.head?_dropWhile_not p (l.dropWhile p).reverse
  rw [h] at this
  exact this

/-- The result of `strings.TrimSpace` is the argument with its leading and trailing white
space removed. -/
theorem TrimSpace_isTrimOf (s : String) : IsTrimOf (strings.TrimSpace s) s := by
  refine ⟨?_, ?_, ?_⟩
  · exact dropWhile_both_ends_split unicode.IsSpace s.data
  · intro c hc
    exact dropWhile_both_ends_head unicode.IsSpace s.data c hc
  · intro c hc
    exact dropWhile_both_ends_last unicode.IsSpace s.data c hc

/-- A string of white space is trimmed to the empty string. -/
theorem TrimSpace_of_all_space (s : String) (h : ∀ c ∈ s.data, unicode.IsSpace c = true) :
    strings.TrimSpace s = "" := by
  have h0 : s.data.dropWhile unicode.IsSpace = [] := List.dropWhile_eq_nil_iff.mpr h
  simp [strings.TrimSpace, h0]

/-- C9: for every value of the `PORT` and `REDIS_URL` environment variables, the effective
port is the white-space-trimmed `PORT` when that is not empty and `11211` otherwise, the
effective backend URL is the white-space-trimmed `REDIS_URL` when that is not empty and
`redis://127.0.0.1:6379/0` otherwise, and the listen address is `0.0.0.0:` followed by the
effective port; a value that is white space only gives the same as an unset variable. -/
theorem effective_port_and_backend_url (env : Environ) :
    (∃ p, IsTrimOf p (os.Getenv env "PORT")
        ∧ (mainOptions env).port = if p ≠ "" then p else "11211")
      ∧ (∃ u, IsTrimOf u (os.Getenv env "REDIS_URL")
        ∧ (mainOptions env).redisURL = if u ≠ "" then u else "redis://127.0.0.1:6379/0")
      ∧ listenAddress env = "0.0.0.0:" ++ (mainOptions env).port
      ∧ (env "PORT" = none → (mainOptions env).port = "11211")
      ∧ (∀ v, env "PORT" = some v → (∀ c ∈ v.data, unicode.IsSpace c = true) →
          (mainOptions env).port = "11211")
      ∧ (env "REDIS_URL" = none → (mainOptions env).redisURL = "redis://127.0.0.1:6379/0")
      ∧ (∀ v, env "REDIS_URL" = some v → (∀ c ∈ v.data, unicode.IsSpace c = true) →
          (mainOptions env).redisURL = "redis://127.0.0.1:6379/0") := by
  refine ⟨⟨optPort env, TrimSpace_isTrimOf _, ?_⟩, ⟨optRedisURL env, TrimSpace_isTrimOf _, ?_⟩,
    rfl, ?_, ?_, ?_, ?_⟩
  · by_cases h : optPort env = "" <;> simp [mainOptions, h]
  · by_cases h : optRedisURL env = "" <;> simp [mainOptions, h]
  · intro h
    have : optPort env = "" := by simp [optPort, os.Getenv, h]; rfl
    simp [mainOptions, this]
  · intro v h hv
    have : optPort env = "" := by
      simp only [optPort, os.Getenv, h, Option.getD_some]
      exact TrimSpace_of_all_space v hv
    simp [mainOptions, this]
  · intro h
    have : optRedisURL env = "" := by simp [optRedisURL, os.Getenv, h]; rfl
    simp [mainOptions, this]
  · intro v h hv
    have : optRedisURL env = "" := by
      simp only [optRedisURL, os.Getenv, h, Option.getD_some]
      exact TrimSpace_of_all_space v hv
    simp [mainOptions, this]

/-! ## One request at a time -/

/-- The trace of a loop with a pass left: the events of that pass, then those of the
passes after it when it ended in `continue`. -/
theorem loop_trace_cons (remote : String) (debug : Bool) (r : Round) (rest : List Round) :
    (loop remote debug (r :: rest)).1 =
      (iteration remote debug r).1 ++
        (match (iteration remote debug r).2 with
          | .next => (loop remote debug rest).1
          | .ret _ => []) := by
  rcases hc : (iteration remote debug r).2 with _ | err
  · rw [loop_cons_next remote debug r rest hc]
  · rw [loop_cons_ret remote debug r rest err hc]
    simp

/-- The four shapes of a pass: a failed read and its answer; a request answered with the
shutdown line; a request dispatched with an error returned; a request dispatched. -/
theorem iteration_shape (remote : String) (debug : Bool) (r : Round) :
    (∃ e tl, r.read = .error e ∧ (iteration remote debug r).1 = .readRequest (.error e) :: tl
        ∧ (∀ x ∈ tl, x.isAnswer = true))
      ∨ (∃ req tl err, r.read = .ok req
        ∧ iteration remote debug r =
          (.readRequest (.ok req) :: .ctxErr true
            :: .writeString (memwire.CodeServerErr ++ " shutting down\r\n") r.write :: tl,
            .ret err)
        ∧ (∀ x ∈ tl, x.isAnswer = true))
      ∨ (∃ req e, r.read = .ok req
        ∧ iteration remote debug r =
          ([.readRequest (.ok req), .ctxErr false, .doCall req, .doReturn (some e)],
            .ret (some e)))
      ∨ (∃ req, r.read = .ok req
        ∧ iteration remote debug r =
          ([.readRequest (.ok req), .ctxErr false, .doCall req, .doReturn none], .next)) := by
  rcases hr : r.read with req | e
  · rcases hc : r.cancelled with _ | _
    · rcases hd : r.dispatch with cls | e
      · right; right; right
        exact ⟨req, rfl, by simp [iteration, roundTrip, hr, hc, hd, DoOutcome.err]⟩
      · right; right; left
        exact ⟨req, e, rfl, by simp [iteration, roundTrip, hr, hc, hd, DoOutcome.err]⟩
    · right; left
      rcases hw : r.write with _ | ew
      · exact ⟨req, [.flush r.flush], r.flush, rfl,
          by simp [iteration, shuttingDown, hr, hc, hw], by simp [Event.isAnswer]⟩
      · exact ⟨req, [], some ew, rfl,
          by simp [iteration, shuttingDown, hr, hc, hw], by simp⟩
  · left
    refine ⟨e, (iteration remote debug r).1.tail, rfl, ?_, ?_⟩
    · obtain ⟨tl, htl⟩ := iteration_head remote debug r
      rw [htl, hr]
      rfl
    · cases debug <;> rcases e with _ | msg | msg <;> rcases hw : r.write with _ | ew <;>
        rcases hf : r.flush with _ | ef <;>
        simp [iteration, readFailed, hr, hw, hf, GoError.isEOF, GoError.isWire, Event.isAnswer]

/-- The decoded requests of two traces put together. -/
theorem decoded_append (a b : List Event) : decoded (a ++ b) = decoded a ++ decoded b := by
  induction a with
  | nil => rfl
  | cons x a ih =>
    cases x with
    | readRequest res => cases res <;> simp [decoded, ih]
    | _ => simp [decoded, ih]

/-- The dispatched requests of two traces put together. -/
theorem dispatched_append (a b : List Event) :
    dispatched (a ++ b) = dispatched a ++ dispatched b := by
  induction a with
  | nil => rfl
  | cons x a ih => cases x <;> simp [dispatched, ih]

/-- The number of reads of two traces put together. -/
theorem reads_append (a b : List Event) : reads (a ++ b) = reads a + reads b := by
  induction a with
  | nil => simp [reads]
  | cons x a ih =>
    cases x with
    | readRequest res => simp [reads, ih]; omega
    | _ => simp [reads, ih]

/-- A run of answers holds no decoded request, no dispatched request and no read. -/
theorem answers_quiet (tl : List Event) (h : ∀ x ∈ tl, x.isAnswer = true) :
    decoded tl = [] ∧ dispatched tl = [] ∧ reads tl = 0 := by
  induction tl with
  | nil => exact ⟨rfl, rfl, rfl⟩
  | cons x tl ih =>
    have hx := h x (List.mem_cons_self x tl)
    have ht := ih (fun y hy => h y (List.mem_cons_of_mem x hy))
    cases x <;> simp [Event.isAnswer] at hx <;> simp [decoded, dispatched, reads, ht]

/-- An element that is not in the first part of a list sits in the second. -/
theorem split_after {α : Type} (a t pre post : List α) (y : α) (hy : y ∉ a)
    (h : a ++ t = pre ++ y :: post) : ∃ pre', pre = a ++ pre' ∧ t = pre' ++ y :: post := by
  induction a generalizing pre with
  | nil => exact ⟨pre, rfl, h⟩
  | cons x a ih =>
    cases pre with
    | nil =>
      simp at h
      exact absurd (h.1 ▸ List.mem_cons_self x a) hy
    | cons z pre =>
      simp at h
      obtain ⟨pre', h1, h2⟩ := ih pre (fun hm => hy (List.mem_cons_of_mem x hm)) h.2
      exact ⟨pre', by rw [h.1, h1]; rfl, h2⟩

/-- What follows a decoded request in the trace of the loop: either its dispatch (the
context check, the call of `RoundTripper.Do` on that request and the return of the call,
and then nothing or, the call having returned nil, the next `memwire.ReadRequest`), or the
shutdown line with no dispatch and no read after it. -/
theorem after_decoded_read (remote : String) (debug : Bool) (rounds : List Round) :
    ∀ pre req post, (loop remote debug rounds).1 = pre ++ .readRequest (.ok req) :: post →
      (∃ e post', post = .ctxErr false :: .doCall req :: .doReturn e :: post'
          ∧ (post' = [] ∨ (e = none ∧ ∃ res post'', post' = .readRequest res :: post'')))
        ∨ (∃ w tl, post = .ctxErr true
              :: .writeString (memwire.CodeServerErr ++ " shutting down\r\n") w :: tl
            ∧ dispatched post = [] ∧ reads post = 0) := by
  induction rounds with
  | nil =>
    intro pre req post h
    simp [loop] at h
  | cons r rest ih =>
    intro pre req post h
    rw [loop_trace_cons] at h
    rcases iteration_shape remote debug r with
      ⟨e, tl, -, hev, htl⟩ | ⟨req0, tl, err, -, hit, htl⟩ | ⟨req0, e, -, hit⟩ | ⟨req0, -, hit⟩
    · have hy : Event.readRequest (.ok req) ∉ (iteration remote debug r).1 := by
        rw [hev]
        intro hm
        rcases List.mem_cons.mp hm with h1 | h1
        · cases h1
        · simpa [Event.isAnswer] using htl _ h1
      obtain ⟨pre', -, h2⟩ := split_after _ _ pre post _ hy h
      rcases hc : (iteration remote debug r).2 with _ | err
      · rw [hc] at h2
        exact ih pre' req post h2
      · rw [hc] at h2
        simp at h2
    · rw [hit] at h
      simp only [List.append_nil] at h
      cases pre with
      | nil =>
        simp at h
        right
        refine ⟨r.write, tl, h.2.symm, ?_, ?_⟩
        · rw [← h.2]
          simp [dispatched, (answers_quiet tl htl).2.1]
        · rw [← h.2]
          simp [reads, (answers_quiet tl htl).2.2]
      | cons z pre1 =>
        simp only [List.cons_append, List.cons.injEq] at h
        have hy : Event.readRequest (.ok req) ∉ (Event.ctxErr true
            :: .writeString (memwire.CodeServerErr ++ " shutting down\r\n") r.write :: tl) := by
          intro hm
          simp at hm
          simpa [Event.isAnswer] using htl _ hm
        obtain ⟨pre', -, h2⟩ := split_after _ [] pre1 post _ hy (by simpa using h.2)
        simp at h2
    · rw [hit] at h
      simp only [List.append_nil] at h
      cases pre with
      | nil =>
        simp at h
        left
        exact ⟨some e, [], by rw [← h.2, h.1], Or.inl rfl⟩
      | cons z pre1 =>
        simp only [List.cons_append, List.cons.injEq] at h
        have hy : Event.readRequest (.ok req) ∉
            [Event.ctxErr false, .doCall req0, .doReturn (some e)] := by simp
        obtain ⟨pre', -, h2⟩ := split_after _ [] pre1 post _ hy (by simpa using h.2)
        simp at h2
    · rw [hit] at h
      simp only at h
      cases pre with
      | nil =>
        simp at h
        left
        refine ⟨none, (loop remote debug rest).1, by rw [← h.2, h.1], ?_⟩
        cases rest with
        | nil => exact Or.inl (by simp [loop])
        | cons r' rest' =>
          obtain ⟨tl, htl⟩ := loop_head remote debug r' rest'
          exact Or.inr ⟨rfl, r'.read, tl, htl⟩
      | cons z pre1 =>
        simp only [List.cons_append, List.cons.injEq] at h
        have hy : Event.readRequest (.ok req) ∉
            [Event.ctxErr false, .doCall req0, .doReturn none] := by simp
        obtain ⟨pre', -, h2⟩ := split_after _ (loop remote debug rest).1 pre1 post _ hy
          (by simpa using h.2)
        exact ih pre' req post h2

/-- What surrounds a call of `RoundTripper.Do` in the trace of the loop: the read that
decoded the request and the context check stand right before it, the return of the call
right after it. -/
theorem around_dispatch (remote : String) (debug : Bool) (rounds : List Round) :
    ∀ pre req post, (loop remote debug rounds).1 = pre ++ .doCall req :: post →
      ∃ pre' e post', pre = pre' ++ [.readRequest (.ok req), .ctxErr false]
        ∧ post = .doReturn e :: post' := by
  induction rounds with
  | nil =>
    intro pre req post h
    simp [loop] at h
  | cons r rest ih =>
    intro pre req post h
    rw [loop_trace_cons] at h
    rcases iteration_shape remote debug r with
      ⟨e, tl, -, hev, htl⟩ | ⟨req0, tl, err, -, hit, htl⟩ | ⟨req0, e, -, hit⟩ | ⟨req0, -, hit⟩
    · have hy : Event.doCall req ∉ (iteration remote debug r).1 := by
        rw [hev]
        intro hm
        rcases List.mem_cons.mp hm with h1 | h1
        · cases h1
        · simpa [Event.isAnswer] using htl _ h1
      obtain ⟨pre', h1, h2⟩ := split_after _ _ pre post _ hy h
      rcases hc : (iteration remote debug r).2 with _ | err
      · rw [hc] at h2
        obtain ⟨p, e', post', hp, hpost⟩ := ih pre' req post h2
        exact ⟨(iteration remote debug r).1 ++ p, e', post', by rw [h1, hp]; simp, hpost⟩
      · rw [hc] at h2
        simp at h2
    · rw [hit] at h
      simp only [List.append_nil] at h
      have hy : Event.doCall req ∉ (Event.readRequest (.ok req0) :: .ctxErr true
          :: .writeString (memwire.CodeServerErr ++ " shutting down\r\n") r.write :: tl) := by
        intro hm
        simp at hm
        simpa [Event.isAnswer] using htl _ hm
      obtain ⟨pre', -, h2⟩ := split_after _ [] pre post _ hy (by simpa using h)
      simp at h2
    · rw [hit] at h
      simp only [List.append_nil] at h
      have hy : Event.doCall req ∉ [Event.readRequest (.ok req0), .ctxErr false] := by simp
      obtain ⟨pre', h1, h2⟩ := split_after _ [.doCall req0, .doReturn (some e)] pre post _ hy
        (by simpa using h)
      cases pre' with
      | nil =>
        simp at h2
        exact ⟨[], some e, [], by rw [h1, h2.1]; simp, h2.2.symm⟩
      | cons z p =>
        simp only [List.cons_append, List.cons.injEq] at h2
        have hy' : Event.doCall req ∉ [Event.doReturn (some e)] := by simp
        obtain ⟨p', -, h3⟩ := split_after _ [] p post _ hy' (by simpa using h2.2)
        simp at h3
    · rw [hit] at h
      simp only at h
      have hy : Event.doCall req ∉ [Event.readRequest (.ok req0), .ctxErr false] := by simp
      obtain ⟨pre', h1, h2⟩ := split_after _
        (.doCall req0 :: .doReturn none :: (loop remote debug rest).1) pre post _ hy
        (by simpa using h)
      cases pre' with
      | nil =>
        simp at h2
        exact ⟨[], none, (loop remote debug rest).1, by rw [h1, h2.1]; simp, h2.2.symm⟩
      | cons z p =>
        simp only [List.cons_append, List.cons.injEq] at h2
        have hy' : Event.doCall req ∉ [Event.doReturn none] := by simp
        obtain ⟨p', h3, h4⟩ := split_after _ (loop remote debug rest).1 p post _ hy'
          (by simpa using h2.2)
        obtain ⟨q, e', post', hq, hpost⟩ := ih p' req post h4
        refine ⟨[.readRequest (.ok req0), .ctxErr false, .doCall req0, .doReturn none] ++ q,
          e', post', ?_, hpost⟩
        rw [h1, h3, hq, ← h2.1]
        simp

/-- The requests decoded in the trace of the loop are those of the passes that were made,
in the order of the passes; a pass makes one read. -/
theorem decoded_loop (remote : String) (debug : Bool) (rounds : List Round) :
    decoded (loop remote debug rounds).1
      = decodedIn (rounds.take (reads (loop remote debug rounds).1)) := by
  induction rounds with
  | nil => simp [loop, decoded, decodedIn]
  | cons r rest ih =>
    rw [loop_trace_cons]
    rcases iteration_shape remote debug r with
      ⟨e, tl, hr, hev, htl⟩ | ⟨req0, tl, err, hr, hit, htl⟩ | ⟨req0, e, hr, hit⟩ | ⟨req0, hr, hit⟩
    · obtain ⟨hd, -, hrd⟩ := answers_quiet tl htl
      have h1 : decoded (.readRequest (.error e) :: tl) = [] := by simp [decoded, hd]
      have h2 : reads (.readRequest (.error e) :: tl) = 1 := by simp [reads, hrd]
      rw [hev, decoded_append, reads_append, h1, h2]
      rcases hc : (iteration remote debug r).2 with _ | err
      · simp only [List.nil_append]
        rw [Nat.add_comm, List.take_succ_cons]
        simp [decodedIn, hr, ih]
      · simp [decoded, reads, decodedIn, hr]
    · obtain ⟨hd, -, hrd⟩ := answers_quiet tl htl
      rw [hit]
      simp [decoded, reads, hd, hrd, decodedIn, hr]
    · rw [hit]
      simp [decoded, reads, decodedIn, hr]
    · have h1 : decoded [.readRequest (.ok req0), .ctxErr false, .doCall req0, .doReturn none]
          = [req0] := by simp [decoded]
      have h2 : reads [.readRequest (.ok req0), .ctxErr false, .doCall req0, .doReturn none]
          = 1 := by simp [reads]
      rw [hit]
      simp only
      rw [decoded_append, reads_append, h1, h2, Nat.add_comm, List.take_succ_cons]
      simp [decodedIn, hr, ih]

/-- The requests dispatched in the trace of the loop are the decoded ones in the same
order, all of them or all but the last. -/
theorem dispatched_loop (remote : String) (debug : Bool) (rounds : List Round) :
    dispatched (loop remote debug rounds).1
        = (decoded (loop remote debug rounds).1).take
            (dispatched (loop remote debug rounds).1).length
      ∧ (decoded (loop remote debug rounds).1).length
        ≤ (dispatched (loop remote debug rounds).1).length + 1 := by
  induction rounds with
  | nil => simp [loop, decoded, dispatched]
  | cons r rest ih =>
    rw [loop_trace_cons]
    rcases iteration_shape remote debug r with
      ⟨e, tl, hr, hev, htl⟩ | ⟨req0, tl, err, hr, hit, htl⟩ | ⟨req0, e, hr, hit⟩ | ⟨req0, hr, hit⟩
    · obtain ⟨hd, hdi, -⟩ := answers_quiet tl htl
      have h1 : decoded (.readRequest (.error e) :: tl) = [] := by simp [decoded, hd]
      have h2 : dispatched (.readRequest (.error e) :: tl) = [] := by simp [dispatched, hdi]
      rw [hev, decoded_append, dispatched_append, h1, h2]
      rcases hc : (iteration remote debug r).2 with _ | err
      · simpa using ih
      · simp [decoded, dispatched]
    · obtain ⟨hd, hdi, -⟩ := answers_quiet tl htl
      rw [hit]
      simp [decoded, dispatched, hd, hdi]
    · rw [hit]
      simp [decoded, dispatched]
    · have h1 : decoded [.readRequest (.ok req0), .ctxErr false, .doCall req0, .doReturn none]
          = [req0] := by simp [decoded]
      have h2 : dispatched [.readRequest (.ok req0), .ctxErr false, .doCall req0,
          .doReturn none] = [req0] := by simp [dispatched]
      rw [hit]
      simp only
      rw [decoded_append, dispatched_append, h1, h2]
      simp only [List.singleton_append, List.length_cons, List.take_succ_cons]
      exact ⟨by rw [← ih.1], by omega⟩

/-- C5: within one connection requests are strictly sequential.  In the trace of the
request loop, whatever the calls return, (1) each decoded request is followed at once by
the context check and either exactly one call of `RoundTripper.Do`, on that request, and
the return of that call, after which the trace ends or (the call having returned nil) the
next `memwire.ReadRequest` is made, or the shutdown line, after which nothing is
dispatched or read; (2) each call of `RoundTripper.Do` stands right after the read that
decoded its request and right before its own return; (3) the requests are decoded in the
order of the passes; (4) the requests are dispatched in the order they were decoded, all
of them or all but the last. -/
theorem requests_strictly_sequential (remote : String) (debug : Bool) (rounds : List Round) :
    (∀ pre req post, (loop remote debug rounds).1 = pre ++ .readRequest (.ok req) :: post →
        (∃ e post', post = .ctxErr false :: .doCall req :: .doReturn e :: post'
            ∧ (post' = [] ∨ (e = none ∧ ∃ res post'', post' = .readRequest res :: post'')))
          ∨ (∃ w tl, post = .ctxErr true
                :: .writeString (memwire.CodeServerErr ++ " shutting down\r\n") w :: tl
              ∧ dispatched post = [] ∧ reads post = 0))
      ∧ (∀ pre req post, (loop remote debug rounds).1 = pre ++ .doCall req :: post →
          ∃ pre' e post', pre = pre' ++ [.readRequest (.ok req), .ctxErr false]
            ∧ post = .doReturn e :: post')
      ∧ decoded (loop remote debug rounds).1
          = decodedIn (rounds.take (reads (loop remote debug rounds).1))
      ∧ dispatched (loop remote debug rounds).1
          = (decoded (loop remote debug rounds).1).take
              (dispatched (loop remote debug rounds).1).length
      ∧ (decoded (loop remote debug rounds).1).length
          ≤ (dispatched (loop remote debug rounds).1).length + 1 :=
  ⟨after_decoded_read remote debug rounds, around_dispatch remote debug rounds,
    decoded_loop remote debug rounds, (dispatched_loop remote debug rounds).1,
    (dispatched_loop remote debug rounds).2⟩

/-- Witness of C5: a `set`, a framing error, a `get` and a `delete` read after the
shutdown signal; the first two requests are dispatched in turn, the third is not. -/
theorem requests_strictly_sequential_witness :
    decoded (loop "10.0.0.7:40112" false
        [⟨.ok ⟨"set", "x", 0, 0, 5, [104, 101, 108, 108, 111], 0, 0, false⟩, false, none, none,
            .responded .success⟩,
          ⟨.error (.wire "unknown command"), false, none, none, .responded .success⟩,
          ⟨.ok ⟨"get", "x", 0, 0, 0, [], 0, 0, false⟩, false, none, none,
            .responded .serverError⟩,
          ⟨.ok ⟨"delete", "x", 0, 0, 0, [], 0, 0, false⟩, true, none, none,
            .responded .success⟩]).1 =
      [⟨"set", "x", 0, 0, 5, [104, 101, 108, 108, 111], 0, 0, false⟩,
        ⟨"get", "x", 0, 0, 0, [], 0, 0, false⟩, ⟨"delete", "x", 0, 0, 0, [], 0, 0, false⟩]
    ∧ dispatched (loop "10.0.0.7:40112" false
        [⟨.ok ⟨"set", "x", 0, 0, 5, [104, 101, 108, 108, 111], 0, 0, false⟩, false, none, none,
            .responded .success⟩,
          ⟨.error (.wire "unknown command"), false, none, none, .responded .success⟩,
          ⟨.ok ⟨"get", "x", 0, 0, 0, [], 0, 0, false⟩, false, none, none,
            .responded .serverError⟩,
          ⟨.ok ⟨"delete", "x", 0, 0, 0, [], 0, 0, false⟩, true, none, none,
            .responded .success⟩]).1 =
      [⟨"set", "x", 0, 0, 5, [104, 101, 108, 108, 111], 0, 0, false⟩,
        ⟨"get", "x", 0, 0, 0, [], 0, 0, false⟩] := by
  have h := requests_strictly_sequential "10.0.0.7:40112" false
    [⟨.ok ⟨"set", "x", 0, 0, 5, [104, 101, 108, 108, 111], 0, 0, false⟩, false, none, none,
        .responded .success⟩,
      ⟨.error (.wire "unknown command"), false, none, none, .responded .success⟩,
      ⟨.ok ⟨"get", "x", 0, 0, 0, [], 0, 0, false⟩, false, none, none, .responded .serverError⟩,
      ⟨.ok ⟨"delete", "x", 0, 0, 0, [], 0, 0, false⟩, true, none, none, .responded .success⟩]
  refine ⟨?_, ?_⟩
  · rw [h.2.2.1]
    decide
  · decide

end Redmemd
